import Mathlib

/-
  Verification of nox-poetry against its specification.

  The definitions below are a shallow embedding of the Python sources:
    src/nox_poetry/sessions.py
    src/nox_poetry/core.py
    src/nox_poetry/poetry.py
  External effects (subprocess output, the filesystem, the packaging
  requirement parser, the blake2b hash) are threaded explicitly as data.
-/

set_option maxHeartbeats 1000000

namespace NoxPoetry

/-! ## Model of the extras-splitting helper

Source (sessions.py, core.py):

  EXTRAS_PATTERN = the anchored regular expression
    caret (.+) (backslash-bracket [^ closing-bracket ]+ backslash-bracket) dollar

  def split_extras(arg):
      match = EXTRAS_PATTERN.match(arg)
      if match: return match.group(1), match.group(2)
      return arg, None

Python regular-expression semantics embedded here:

  - the dollar anchor matches at the end of the string OR just before one
    newline character that ends the string, so the match target is the
    input with at most one trailing newline removed, and that newline is
    not part of any group;
  - the dot of group 1 matches every character except the newline, so
    group 1 is nonempty and newline-free (it may contain brackets);
  - the negated class of group 2 matches every character except the
    closing bracket, newline and opening bracket included, so the
    interior of group 2 is nonempty and free of closing brackets;
  - group 1 is greedy: the match uses the RIGHTMOST opening bracket whose
    interior, running to the final closing bracket, is nonempty and free
    of closing brackets, and whose prefix is nonempty and newline-free.
    Backtracking skips a candidate with an empty interior or a newline in
    its prefix (the skipped bracket then sits inside the interior of an
    earlier candidate), while a closing bracket in the interior rules out
    every candidate further left as well.

We realise exactly that by one scan over the reversed character list. -/

/-- The match target: the input with a single trailing newline removed,
reflecting the dollar anchor of the pattern. -/
def stripNl (l : List Char) : List Char :=
  if l.getLast? = some '\n' then l.dropLast else l

/-- Scan right to left over the part before the final closing bracket,
accumulating the prospective interior, and stop at the rightmost opening
bracket that yields a regex match: nonempty interior, nonempty prefix
free of newlines.  A closing bracket aborts the scan; a failed candidate
joins the interior, exactly like regex backtracking. -/
def findSplit : List Char → List Char → Option (List Char × List Char)
  | [], _ => none
  | c :: rs, acc =>
    if c = ']' then none
    else if c = '[' then
      if acc.isEmpty || rs.isEmpty || rs.contains '\n' then findSplit rs (c :: acc)
      else some (rs, acc)
    else findSplit rs (c :: acc)

/-- Core of split_extras on character lists.  Returns (group 1, group 2)
on a regex match and (input, none) otherwise; on a match, group 1 and
group 2 concatenate to the input with at most one trailing newline
dropped. -/
def splitExtrasCore (l : List Char) : List Char × Option (List Char) :=
  match (stripNl l).reverse with
  | ']' :: rest =>
    match findSplit rest [] with
    | some (baseRev, inner) => (baseRev.reverse, some ('[' :: (inner ++ [']'])))
    | none => (l, none)
  | _ => (l, none)

/-- Model of split_extras (named with a leading underscore in the source). -/
def split_extras (arg : String) : String × Option String :=
  match splitExtrasCore arg.data with
  | (base, none) => (⟨base⟩, none)
  | (base, some extras) => (⟨base⟩, some ⟨extras⟩)

/-- String form of the match target of the extras pattern. -/
def stripFinalNewline (s : String) : String := ⟨stripNl s.data⟩

/-! ## Model of the Config reader (poetry.py, class Config)

Source:

  class Config:
      def init(self, project):
          data = tomlkit.parse((project / "pyproject.toml").read_text())
          self.config = data.get("tool", dict()).get("poetry", dict())
          self.pyproject = data.get("project", dict())
      def name(self):
          name = self.config.get("name", self.pyproject.get("name"))
          assert isinstance(name, str); return name
      def extras(self):
          extras = self.config.get("extras", dict()); return list(extras)
      def dependency_groups(self):
          groups = self.config.get("group", dict())
          if not groups and "dev-dependencies" in self.config: return ["dev"]
          return list(groups)

We model the parsed TOML document as a tree of tables and strings; the
leaves that the reader never inspects structurally are represented as
strings.  Python dict iteration order is insertion order, so a table is
an ordered association list. -/

inductive TomlV where
  | str (s : String)
  | table (entries : List (String × TomlV))

/-- Lookup of a key in a table value; on a non-table the source would have
raised, and Python dict.get returns the first (unique) binding. -/
def lookupEntries : List (String × TomlV) → String → Option TomlV
  | [], _ => none
  | (k, v) :: rest, key => if k = key then some v else lookupEntries rest key

def TomlV.lookup : TomlV → String → Option TomlV
  | .table es, key => lookupEntries es key
  | .str _, _ => none

/-- Python dict.get with a default value. -/
def TomlV.getD (t : TomlV) (key : String) (d : TomlV) : TomlV :=
  (t.lookup key).getD d

/-- The keys of a table, in insertion order; list(dict) in the source. -/
def TomlV.keys : TomlV → List String
  | .table es => es.map Prod.fst
  | .str _ => []

/-- Python truthiness of the values the reader tests: an empty dict or
empty string is falsy. -/
def TomlV.isFalsy : TomlV → Bool
  | .table es => es.isEmpty
  | .str s => s.isEmpty

/-- The two tables the constructor extracts from the parsed document. -/
structure Config where
  poetryTable : TomlV
  projectTable : TomlV

/-- Constructor body of Config: navigate to tool.poetry and project,
each defaulting to an empty table. -/
def Config.ofData (data : TomlV) : Config :=
  { poetryTable := (data.getD "tool" (.table [])).getD "poetry" (.table [])
  , projectTable := data.getD "project" (.table []) }

/-- Config.name: the tool.poetry name, falling back to the project name.
The none result models the assertion failure on a missing or non-string
name. -/
def Config.name (c : Config) : Option String :=
  match (c.poetryTable.lookup "name").orElse (fun _ => c.projectTable.lookup "name") with
  | some (.str s) => some s
  | _ => none

/-- Config.extras: the keys of the tool.poetry extras table. -/
def Config.extras (c : Config) : List String :=
  (c.poetryTable.getD "extras" (.table [])).keys

/-- Config.dependency_groups: the keys of the tool.poetry group table,
with the dev fallback for legacy dev-dependencies sections. -/
def Config.dependency_groups (c : Config) : List String :=
  let groups := c.poetryTable.getD "group" (.table [])
  if groups.isFalsy && (c.poetryTable.lookup "dev-dependencies").isSome then ["dev"]
  else groups.keys

/-! ## Model of the Poetry command helpers (poetry.py, class Poetry)

Each helper invokes Nox session.run_always on an external command.  Nox
returns the captured output as a string, or None when the command was not
executed (for example under the no-install option).  We model the run
result as an Option String supplied by the environment, and exceptions as
an explicit error type. -/

/-- Python exceptions raised by the embedded code paths. -/
inductive PError where
  | commandSkipped (msg : String)
  | runtimeError (msg : String)
  | indexError
  deriving DecidableEq, Repr

/-- Distribution archive formats (poetry.py, DistributionFormat). -/
inductive DistributionFormat where
  | wheel
  | sdist
  deriving DecidableEq, Repr

/-- Bool test that a character list begins with the given pattern. -/
def listIsPrefix : List Char → List Char → Bool
  | [], _ => true
  | _ :: _, [] => false
  | a :: as, b :: bs => a = b && listIsPrefix as bs

/-- Python str.startswith. -/
def pyStartswith (s pat : String) : Bool := listIsPrefix pat.data s.data

/-- Python truthiness of str.strip(): a string is blank when every
character is whitespace. -/
def isBlank (s : String) : Bool := s.data.all (fun c => c.isWhitespace)

/-- Splitting on runs of whitespace, accumulating the current token in
reverse. -/
def splitWsAux : List Char → List Char → List (List Char)
  | [], acc => if acc.isEmpty then [] else [acc.reverse]
  | c :: rest, acc =>
    if c.isWhitespace then
      if acc.isEmpty then splitWsAux rest []
      else acc.reverse :: splitWsAux rest []
    else splitWsAux rest (c :: acc)

/-- Python str.split with no separator: the maximal nonempty tokens
between runs of whitespace. -/
def pySplit (s : String) : List String :=
  (splitWsAux s.data []).map (fun l => ⟨l⟩)

/-- Splitting into lines at newline characters, accumulating the current
line in reverse; no empty final line is produced for a trailing newline. -/
def splitLinesAux : List Char → List Char → List (List Char)
  | [], acc => if acc.isEmpty then [] else [acc.reverse]
  | c :: rest, acc =>
    if c = '\n' then acc.reverse :: splitLinesAux rest []
    else splitLinesAux rest (c :: acc)

/-- Python str.splitlines for newline-separated text. -/
def pySplitlines (s : String) : List String :=
  (splitLinesAux s.data []).map (fun l => ⟨l⟩)

/-- Python str.splitlines(keepends=True), modelled for newline-terminated
lines: each piece keeps its trailing newline. -/
def splitKeepEnds : List Char → List Char → List (List Char)
  | [], acc => if acc.isEmpty then [] else [acc.reverse]
  | c :: rest, acc =>
    if c = '\n' then (acc.reverse ++ ['\n']) :: splitKeepEnds rest []
    else splitKeepEnds rest (c :: acc)

/-- The warning-stripping generator inside Poetry.export: drop every line
starting with the warning marker and join the rest back together. -/
def stripWarnings (s : String) : String :=
  String.join ((splitKeepEnds s.data []).map (fun l => String.mk l)
    |>.filter (fun l => ¬ pyStartswith l "Warning:"))

/-- Poetry.version (poetry.py).  The run output is the captured text of
the poetry version command, or none when Nox skipped it.  searchVersion
abstracts the regular-expression search VERSION_PATTERN.search, which the
claims do not inspect; cached models the memoised version field. -/
def poetryVersion (cached : Option String) (runOutput : Option String)
    (searchVersion : String → Option String) : Except PError String :=
  match cached with
  | some v => .ok v
  | none =>
    match runOutput with
    | none => .error (.commandSkipped
        "The command poetry --version was not executed")
    | some out =>
      match searchVersion out with
      | some v => .ok v
      | none => .error (.runtimeError "Cannot parse output of poetry --version")

/-- Poetry.export (poetry.py): raise on a skipped run, otherwise strip
warning lines from the captured output. -/
def poetryExport (runOutput : Option String) : Except PError String :=
  match runOutput with
  | none => .error (.commandSkipped "The command poetry export was not executed")
  | some out => .ok (stripWarnings out)

/-- Poetry.build (poetry.py): raise on a skipped run, otherwise return the
last whitespace-separated token of the captured output (the archive file
name).  The indexError case models the uncaught Python IndexError when the
output has no token at all. -/
def poetryBuild (runOutput : Option String) : Except PError String :=
  match runOutput with
  | none => .error (.commandSkipped "The command poetry build was not executed")
  | some out =>
    match (pySplit out).getLast? with
    | none => .error .indexError
    | some tok => .ok tok

/-! ## Model of the constraint conversion (sessions.py)

to_constraint parses a requirements line with the external packaging
library.  The parser is not part of this repository, so it enters the
model as a function argument: it returns either an invalid-requirement
message or the parsed requirement (name, specifier set rendered as text,
optional marker).  An empty specifier string models an empty (falsy)
SpecifierSet; an empty name cannot arise from the real parser but is
carried faithfully through the truthiness test in the source. -/

structure Req where
  name : String
  specifier : String
  marker : Option String

/-- The tuple of prefixes excluded at the top of to_constraint. -/
def skippedLineMarks : List String :=
  ["-", "file://", "git+https://", "http://", "https://"]

/-- True when the requirement line starts with one of the excluded marks. -/
def isSkippedLine (s : String) : Bool :=
  skippedLineMarks.any (fun p => pyStartswith s p)

/-- to_constraint (sessions.py): convert one requirements line to a
constraint, or none for excluded or name-and-specifier-less lines; an
unparseable line raises RuntimeError naming the line number (the source
formats the line with Python repr, modelled by reprStr). -/
def to_constraint (parse : String → Except String Req)
    (requirement_string : String) (line : Nat) : Except String (Option String) :=
  if isSkippedLine requirement_string then .ok none
  else
    match parse requirement_string with
    | .error err =>
      .error ("line " ++ toString line ++ ": " ++ reprStr requirement_string
        ++ ": " ++ err)
    | .ok r =>
      if r.name = "" ∨ r.specifier = "" then .ok none
      else
        let constraint := r.name ++ r.specifier
        .ok (some (match r.marker with
          | some m => constraint ++ "; " ++ m
          | none => constraint))

/-- The enumerated loop inside to_constraints: walk the lines counting
from the given line number, skip blank lines, drop none conversions,
collect the rest; the first conversion error aborts the walk. -/
def to_constraints_from (parse : String → Except String Req) :
    Nat → List String → Except String (List String)
  | _, [] => .ok []
  | line, l :: rest =>
    if ¬ isBlank l then
      match to_constraint parse l line with
      | .error e => .error e
      | .ok c =>
        match to_constraints_from parse (line + 1) rest with
        | .error e => .error e
        | .ok cs => .ok (match c with
          | some c0 => c0 :: cs
          | none => cs)
    else to_constraints_from parse (line + 1) rest

/-- to_constraints (sessions.py): enumerate the lines starting at 1 and
join the collected constraints with newlines. -/
def to_constraints (parse : String → Except String Req)
    (requirements : String) : Except String String :=
  (to_constraints_from parse 1 (pySplitlines requirements)).map
    (fun cs => String.intercalate "\n" cs)

/-! ## Model of the session helpers (sessions.py, class PoetrySession)

The environment gathers everything the helpers read from the outside
world: the package name from pyproject (poetry.config.name, asserted to
be a string in the source), the absolute working directory (Path.resolve
resolves against it), the captured outputs of the poetry build and poetry
export subprocesses (none when Nox skipped them), the per-session
environment directory, the bytes of poetry.lock, the state of the two
cache files in the tmp directory, the external requirement parser, and
the external blake2b hash (a pure function of the input bytes). -/

structure FsState where
  hashfile : Option String
  requirements : Option String
  deriving DecidableEq, Repr

structure SessionEnv where
  name : String
  cwd : String
  buildOutput : Option String
  exportOutput : Option String
  envdir : String
  lockBytes : List Nat
  fs : FsState
  parse : String → Except String Req
  blake2b : List Nat → String

/-- build_package (sessions.py): build an archive with poetry build, form
the file URL of dist/archive resolved against the working directory
(Path.resolve and Path.as_uri), and append the egg fragment exactly for
the sdist format. -/
def build_package (env : SessionEnv) (distribution_format : DistributionFormat) :
    Except PError String :=
  match poetryBuild env.buildOutput with
  | .error e => .error e
  | .ok filename =>
    let url := "file://" ++ env.cwd ++ "/dist/" ++ filename
    .ok (if distribution_format = .sdist then url ++ "#egg=" ++ env.name else url)

/-- export_requirements (sessions.py).  Returns the path of the
requirements file inside the per-session tmp directory, the resulting
state of the two cache files, and whether poetry export was invoked.
The export runs exactly when the hash file is missing or its stored text
differs from the blake2b digest of poetry.lock; the converted constraints
and the digest are then written out.  A skipped export or a conversion
error propagates as an exception. -/
def export_requirements (env : SessionEnv) :
    Except PError (String × FsState × Bool) :=
  let path := env.envdir ++ "/tmp/requirements.txt"
  let digest := env.blake2b env.lockBytes
  let needsRun := match env.fs.hashfile with
    | none => true
    | some stored => stored ≠ digest
  if needsRun then
    match poetryExport env.exportOutput with
    | .error e => .error e
    | .ok out =>
      match to_constraints env.parse out with
      | .error e => .error (.runtimeError e)
      | .ok constraints =>
        .ok (path, { hashfile := some digest, requirements := some constraints }, true)
  else .ok (path, env.fs, false)

/-- The exception policy of the install helpers: CommandSkippedError is
caught (the helper returns silently), every other exception propagates. -/
def skipToOpt : PError → Option PError
  | .commandSkipped _ => none
  | e => some e

/-- Observable session actions performed by the install helpers. -/
inductive Effect where
  | buildPackage
  | exportRequirements
  | runAlways (cmd : List String)
  | sessionInstall (args : List String)
  deriving DecidableEq, Repr

/-- The rewrite closure inside install: a non-sentinel base is recombined
with its extras; the sentinel base becomes the package URL, or the
name-extras-at-URL form when extras were split off. -/
def rewriteArg (name package : String) (p : String × Option String) : String :=
  if p.1 ≠ "." then
    match p.2 with
    | none => p.1
    | some extras => p.1 ++ extras
  else
    match p.2 with
    | none => package
    | some extras => name ++ extras ++ " @ " ++ package

/-- install (sessions.py).  Split extras off every argument; when some
base equals the sentinel, build a wheel (returning silently when the
command was skipped), rewrite the arguments and uninstall the old copy;
then export the requirements (again returning silently on a skipped
command) and call the underlying session install with the constraint
option followed by the arguments.  The result pairs the emitted effects
with an uncaught exception, if any: only CommandSkippedError is caught. -/
def install (env : SessionEnv) (args : List String) :
    List Effect × Option PError :=
  let args_extras := args.map split_extras
  if "." ∈ args_extras.map Prod.fst then
    match build_package env .wheel with
    | .error (.commandSkipped _) => ([.buildPackage], none)
    | .error e => ([.buildPackage], some e)
    | .ok package =>
      let newArgs := args_extras.map (rewriteArg env.name package)
      let effs := [Effect.buildPackage,
        Effect.runAlways ["pip", "uninstall", "--yes", package]]
      match export_requirements env with
      | .error (.commandSkipped _) => (effs ++ [.exportRequirements], none)
      | .error e => (effs ++ [.exportRequirements], some e)
      | .ok (requirements, _, _) =>
        (effs ++ [.exportRequirements,
          .sessionInstall (("--constraint=" ++ requirements) :: newArgs)], none)
  else
    match export_requirements env with
    | .error (.commandSkipped _) => ([.exportRequirements], none)
    | .error e => ([.exportRequirements], some e)
    | .ok (requirements, _, _) =>
      ([.exportRequirements,
        .sessionInstall (("--constraint=" ++ requirements) :: args)], none)

/-- installroot (sessions.py).  Build the archive and export the
requirements, returning silently when either command was skipped; then
uninstall the old copy, decorate the package reference with the requested
extras, drop the wheel cache entry for sdist installs, and call the
underlying session install with the constraint option and the package. -/
def installroot (env : SessionEnv) (distribution_format : DistributionFormat)
    (extras : List String) : List Effect × Option PError :=
  match build_package env distribution_format with
  | .error (.commandSkipped _) => ([.buildPackage], none)
  | .error e => ([.buildPackage], some e)
  | .ok package =>
    match export_requirements env with
    | .error (.commandSkipped _) => ([.buildPackage, .exportRequirements], none)
    | .error e => ([.buildPackage, .exportRequirements], some e)
    | .ok (requirements, _, _) =>
      let suffix := String.intercalate "," extras
      let package2 :=
        if ¬ isBlank suffix then
          env.name ++ "[" ++ suffix ++ "]" ++ " @ " ++ package
        else package
      let cacheEffs :=
        if distribution_format = .sdist then
          [Effect.runAlways ["pip", "cache", "remove", env.name]]
        else []
      ([Effect.buildPackage, Effect.exportRequirements,
        Effect.runAlways ["pip", "uninstall", "--yes", package]]
        ++ cacheEffs
        ++ [Effect.sessionInstall ["--constraint=" ++ requirements, package2]],
       none)

/-! ## Model of the session proxy (sessions.py, SessionProxy and Session)

Python attribute lookup on the proxy resolves, in order: the attributes
of the class hierarchy and the instance dictionary (the wrapped-session
slot, the poetry helper, the install method defined in the source, and
the names the Python runtime itself puts on every object and class, such
as the class pointer, the initialiser, the instance dictionary, the
docstring, the module name and the getattr hook itself), and only when
all of that fails the getattr hook, which delegates to the wrapped Nox
session.  The runtime-supplied class attributes are external to this
repository, so they enter the model as a map cls; the attributes of the
wrapped session are likewise an abstract map, with a missing name
modelling AttributeError.  The names the source itself installs are kept
structural; in the program they are disjoint from the runtime names, so
the lookup order among them is immaterial. -/

structure NoxSession where
  attrs : String → Option String

inductive ProxyVal where
  | wrappedSession
  | poetryHelper
  | installMethod
  | classAttr (v : String)
  | delegated (v : String)
  | attrError
  deriving DecidableEq, Repr

/-- Attribute access on the proxy Session: instance slots, the install
method, the runtime class attributes, and only then the delegation hook. -/
def proxyGetattr (cls : String → Option String) (s : NoxSession)
    (a : String) : ProxyVal :=
  if a = "_session" then .wrappedSession
  else if a = "poetry" then .poetryHelper
  else if a = "install" then .installMethod
  else
    match cls a with
    | some v => .classAttr v
    | none =>
      match s.attrs a with
      | some v => .delegated v
      | none => .attrError

/-- Direct attribute access on the wrapped Nox session. -/
def sessionGetattr (s : NoxSession) (a : String) : ProxyVal :=
  match s.attrs a with
  | some v => .delegated v
  | none => .attrError

/-! ## Abbreviations and concrete instances used in statements and
witnesses -/

/-- The tool.poetry section of a parsed pyproject document. -/
def poetrySection (data : TomlV) : TomlV :=
  (data.getD "tool" (.table [])).getD "poetry" (.table [])

/-- The project section of a parsed pyproject document. -/
def projectSection (data : TomlV) : TomlV :=
  data.getD "project" (.table [])

/-- A concrete environment: build and export both captured, cold cache. -/
def c1Env : SessionEnv :=
  { name := "demo", cwd := "/p"
  , buildOutput := some "Built demo-0.1.0-py3-none-any.whl"
  , exportOutput := some "", envdir := "/e", lockBytes := []
  , fs := ⟨none, none⟩, parse := fun _ => .error "unused"
  , blake2b := fun _ => "d" }

/-- A concrete environment for the constraint-position analysis. -/
def c2Env : SessionEnv :=
  { name := "demo", cwd := "/p"
  , buildOutput := some "Built demo-0.1.0-py3-none-any.whl"
  , exportOutput := some "", envdir := "/e", lockBytes := []
  , fs := ⟨none, none⟩, parse := fun _ => .error "unused"
  , blake2b := fun _ => "d" }

/-- A concrete environment whose stored hash matches the lock digest. -/
def c3Env : SessionEnv :=
  { name := "demo", cwd := "/p"
  , buildOutput := none
  , exportOutput := none, envdir := "/e", lockBytes := [1, 2]
  , fs := ⟨some "d12", some "old"⟩, parse := fun _ => .error "unused"
  , blake2b := fun _ => "d12" }

/-- A concrete environment with a captured poetry build output. -/
def c5Env : SessionEnv :=
  { name := "demo", cwd := "/p"
  , buildOutput := some "Building demo (0.1.0)\n - Built demo-0.1.0-py3-none-any.whl"
  , exportOutput := none, envdir := "/e", lockBytes := []
  , fs := ⟨none, none⟩, parse := fun _ => .error "unused"
  , blake2b := fun _ => "d" }

/-- A concrete pyproject document for the Config reader. -/
def c6Data : TomlV :=
  .table [("tool", .table [("poetry", .table
    [ ("name", .str "demo")
    , ("extras", .table [("docs", .str "x"), ("tests", .str "y")])
    , ("group", .table [("dev", .table []), ("docs", .table [])])
    ])])]

/-- Runtime class attributes of the proxy: two representatives of the
object protocol names, the class pointer and the delegation hook. -/
def c7Cls : String → Option String :=
  fun a =>
    if a = "__class__" then some "the Session class of this package"
    else if a = "__getattr__" then some "the delegation hook" else none

/-- A wrapped Nox session with its own class pointer and a run method. -/
def c7Wrapped : NoxSession :=
  ⟨fun a =>
    if a = "__class__" then some "the Session class of the task runner"
    else if a = "run" then some "bound method run" else none⟩

/-- A concrete requirement parser for the constraint conversion. -/
def c9Parse : String → Except String Req :=
  fun t => if t = "foo==1.0" then .ok ⟨"foo", "==1.0", none⟩ else .error "bad"

/-- A concrete environment whose export command is skipped. -/
def c10Env : SessionEnv :=
  { name := "demo", cwd := "/p"
  , buildOutput := some "Built demo-0.1.0-py3-none-any.whl"
  , exportOutput := none, envdir := "/e", lockBytes := []
  , fs := ⟨none, none⟩, parse := fun _ => .error "unused"
  , blake2b := fun _ => "d" }

/-! ## Theorems

Helper lemmas come first, then one theorem per claim of the
specification, each with a doc comment naming the claim. -/

/-- Helper: the scan that finds the rightmost regex match point.  On
success the scanned part is the interior, free of closing brackets, the
returned prefix is the nonempty newline-free base, and the interior
(including the initial accumulator) is nonempty. -/
theorem findSplit_spec (r : List Char) : ∀ (acc bR inner : List Char),
    findSplit r acc = some (bR, inner) →
    ∃ mid, r = mid ++ '[' :: bR ∧ inner = mid.reverse ++ acc ∧ ']' ∉ mid ∧
      inner ≠ [] ∧ bR ≠ [] ∧ '\n' ∉ bR := by
  induction r with
  | nil =>
    intro acc bR inner h
    simp [findSplit] at h
  | cons c rs ih =>
    intro acc bR inner h
    simp only [findSplit] at h
    split at h
    next hcb => exact absurd h (by simp)
    next hcb =>
      split at h
      next hco =>
        split at h
        next hfail =>
          obtain ⟨mid, hmid, hinner, hnot, hne, hbne, hnl⟩ :=
            ih (c :: acc) bR inner h
          refine ⟨c :: mid, by simp [hmid], by simp [hinner], ?_, hne, hbne, hnl⟩
          simp [hco, hnot]
        next hok =>
          obtain ⟨h1, h2⟩ : rs = bR ∧ acc = inner := by simpa using h
          subst h1
          subst h2
          have hok2 : (¬acc = [] ∧ ¬rs = []) ∧ '\n' ∉ rs := by
            simpa [not_or] using hok
          exact ⟨[], by simp [hco], by simp, by simp, hok2.1.1, hok2.1.2,
            hok2.2⟩
      next hco =>
        obtain ⟨mid, hmid, hinner, hnot, hne, hbne, hnl⟩ :=
          ih (c :: acc) bR inner h
        refine ⟨c :: mid, by simp [hmid], by simp [hinner], ?_, hne, hbne, hnl⟩
        simp only [List.mem_cons, not_or]
        exact ⟨fun hh => hcb hh.symm, hnot⟩

/-- Helper: the match target is the input itself when the input does not
end with a newline. -/
theorem stripNl_of_not_newline {l : List Char} (h : l.getLast? ≠ some '\n') :
    stripNl l = l := by
  unfold stripNl
  rw [if_neg h]

/-- Helper: when the pattern does not match, the input comes back
unchanged. -/
theorem splitExtrasCore_none {l b : List Char}
    (h : splitExtrasCore l = (b, none)) : b = l := by
  unfold splitExtrasCore at h
  split at h
  next rest heq =>
    split at h
    next baseRev inner hfs => simp at h
    next hfs => exact (Prod.mk.injEq _ _ _ _ ▸ h).1.symm
  next heq => exact (Prod.mk.injEq _ _ _ _ ▸ h).1.symm

/-- On a match, base and extras concatenate to the match target (the
input with at most one trailing newline dropped), the base is nonempty,
and the extras component is one nonempty bracketed group free of closing
brackets. -/
theorem splitExtrasCore_some {l b e : List Char}
    (h : splitExtrasCore l = (b, some e)) :
    b ++ e = stripNl l ∧ b ≠ [] ∧
      ∃ m : List Char, e = '[' :: m ++ [']'] ∧ m ≠ [] ∧ ']' ∉ m := by
  unfold splitExtrasCore at h
  split at h
  next rest heq =>
    split at h
    next baseRev inner hfs =>
      obtain ⟨hb, he⟩ := Prod.mk.injEq _ _ _ _ ▸ h
      obtain he := Option.some.injEq _ _ ▸ he
      obtain ⟨mid, hmid, hinner, hnot, hne, hbne, hnl⟩ :=
        findSplit_spec rest [] baseRev inner hfs
      rw [List.append_nil] at hinner
      have hstrip : stripNl l = rest.reverse ++ [']'] := by
        have := congrArg List.reverse heq
        simpa using this
      refine ⟨?_, ?_, inner, ?_, hne, ?_⟩
      · rw [← hb, ← he, hstrip, hmid, hinner]
        simp
      · rw [← hb]
        simpa only [ne_eq, List.reverse_eq_nil_iff] using hbne
      · rw [← he]
        simp
      · rw [hinner]
        simpa using hnot
    next hfs => simp at h
  next heq => simp at h

/-- Appending character lists underneath the string constructor. -/
theorem string_mk_append (a b : List Char) :
    String.mk a ++ String.mk b = String.mk (a ++ b) := rfl

/-- Helper: a matched split concatenates back to the match target, with a
nonempty base and a well-formed bracketed extras component. -/
theorem split_extras_of_some {arg base extras : String}
    (h : split_extras arg = (base, some extras)) :
    base ++ extras = stripFinalNewline arg ∧ base ≠ "" ∧
      ∃ m : List Char, extras.data = '[' :: m ++ [']'] ∧ m ≠ [] ∧ ']' ∉ m := by
  unfold split_extras at h
  split at h
  next heq => simp at h
  next b e heq =>
    obtain ⟨h1, h2⟩ := Prod.mk.injEq _ _ _ _ ▸ h
    obtain h2 := Option.some.injEq _ _ ▸ h2
    obtain ⟨hcat, hne, m, hm, hm1, hm2⟩ := splitExtrasCore_some heq
    refine ⟨?_, ?_, m, ?_, hm1, hm2⟩
    · rw [← h1, ← h2, string_mk_append, hcat]
      rfl
    · rw [← h1]
      intro hc
      apply hne
      have : (String.mk b).data = ("" : String).data := by rw [hc]
      simpa using this
    · rw [← h2, hm]

/-- Helper: an unmatched split returns the input itself. -/
theorem split_extras_of_none {arg base : String}
    (h : split_extras arg = (base, none)) : base = arg := by
  unfold split_extras at h
  split at h
  next b heq =>
    obtain ⟨h1, _⟩ := Prod.mk.injEq _ _ _ _ ▸ h
    rw [← h1, splitExtrasCore_none heq]
  next heq => simp at h

/-- C8 counterexample: the real splitter also matches just before a
trailing newline, as the dollar anchor of the pattern does, so on a
concrete input ending in a newline it returns a non-none extras
component whose concatenation with the base does not restore the input:
the split is not lossless as claimed. -/
theorem split_extras_not_lossless_cex :
    split_extras "a[b]\n" = ("a", some "[b]") ∧
      ("a" : String) ++ "[b]" ≠ "a[b]\n" := by
  constructor <;> decide

/-- C8 (amended): split_extras is lossless up to one trailing newline.
When it returns a non-none extras component, the concatenation of base
and extras equals the input with its single trailing newline, if any,
removed, and equals the input exactly whenever the input does not end
with a newline; the base is nonempty and the extras component is a
single bracketed group with a nonempty interior containing no closing
bracket.  Otherwise the input is returned unchanged together with none. -/
theorem split_extras_lossless_upto_newline (arg : String) :
    (∀ base extras, split_extras arg = (base, some extras) →
      base ++ extras = stripFinalNewline arg ∧
      (arg.data.getLast? ≠ some '\n' → base ++ extras = arg) ∧
      base ≠ "" ∧
      ∃ m : List Char, extras.data = '[' :: m ++ [']'] ∧ m ≠ [] ∧ ']' ∉ m) ∧
    (∀ base, split_extras arg = (base, none) → base = arg) := by
  constructor
  · intro base extras h
    obtain ⟨hcat, hne, m, hm, hm1, hm2⟩ := split_extras_of_some h
    refine ⟨hcat, ?_, hne, m, hm, hm1, hm2⟩
    intro hnl
    rw [hcat]
    show String.mk (stripNl arg.data) = arg
    rw [stripNl_of_not_newline hnl]
  · exact fun base h => split_extras_of_none h

/-- Witness for the amended C8 at a concrete input with an extras
suffix and no trailing newline. -/
theorem split_extras_lossless_upto_newline_witness :
    ("requests" : String) ++ "[security]"
      = stripFinalNewline "requests[security]" :=
  ((split_extras_lossless_upto_newline "requests[security]").1
    "requests" "[security]" (by decide)).1

/-- C4: when the underlying run call returns none (the command was not
executed by the task runner), Poetry.version, Poetry.export and
Poetry.build each raise CommandSkippedError; no recovery or retry is
attempted, the error is simply propagated. -/
theorem poetry_skip_raises (searchVersion : String → Option String) :
    (∃ m, poetryVersion none none searchVersion = .error (.commandSkipped m)) ∧
    (∃ m, poetryExport none = .error (.commandSkipped m)) ∧
    (∃ m, poetryBuild none = .error (.commandSkipped m)) :=
  ⟨⟨_, rfl⟩, ⟨_, rfl⟩, ⟨_, rfl⟩⟩

/-- C5: build_package returns a file URL whose path is the resolved
location, under the dist directory, of the archive named by the last
whitespace-separated token of the build output, and the egg fragment with
the package name is appended exactly when the format is sdist. -/
theorem build_package_archive_reference (env : SessionEnv) (out tok : String)
    (hout : env.buildOutput = some out)
    (htok : (pySplit out).getLast? = some tok) :
    build_package env .wheel = .ok ("file://" ++ env.cwd ++ "/dist/" ++ tok) ∧
    build_package env .sdist
      = .ok ("file://" ++ env.cwd ++ "/dist/" ++ tok ++ "#egg=" ++ env.name) := by
  unfold build_package poetryBuild
  rw [hout]
  simp [htok]

/-- Witness for C5 on a captured two-line build output. -/
theorem build_package_archive_reference_witness :
    build_package c5Env .wheel
      = .ok ("file://" ++ c5Env.cwd ++ "/dist/" ++ "demo-0.1.0-py3-none-any.whl") ∧
    build_package c5Env .sdist
      = .ok ("file://" ++ c5Env.cwd ++ "/dist/" ++ "demo-0.1.0-py3-none-any.whl"
          ++ "#egg=" ++ c5Env.name) :=
  build_package_archive_reference c5Env _ "demo-0.1.0-py3-none-any.whl" rfl (by decide)

/-- C7 counterexample: the proxy is not a pure pass-through for every
name other than install and poetry: the slot holding the wrapped session
and the class-hierarchy names (here the class pointer, which names this
package on the proxy and the task runner on the wrapped session) resolve
on the proxy itself instead of delegating. -/
theorem proxy_not_transparent_cex :
    (("_session" : String) ≠ "install" ∧ ("_session" : String) ≠ "poetry" ∧
      proxyGetattr c7Cls c7Wrapped "_session"
        ≠ sessionGetattr c7Wrapped "_session") ∧
    (("__class__" : String) ≠ "install" ∧ ("__class__" : String) ≠ "poetry" ∧
      proxyGetattr c7Cls c7Wrapped "__class__"
        ≠ sessionGetattr c7Wrapped "__class__") := by
  refine ⟨⟨by decide, by decide, by decide⟩, ⟨by decide, by decide, by decide⟩⟩

/-- C7 amended: for every attribute name that is not install, not the
poetry helper, not the slot storing the wrapped session, and not an
attribute supplied by the class hierarchy of the proxy (the object
protocol names the runtime installs, such as the class pointer, the
initialiser, the instance dictionary, the docstring and the delegation
hook itself), attribute access on the proxy returns exactly the
corresponding attribute of the wrapped task-runner session. -/
theorem proxy_getattr_delegates (cls : String → Option String)
    (s : NoxSession) (a : String)
    (h1 : a ≠ "install") (h2 : a ≠ "poetry") (h3 : a ≠ "_session")
    (h4 : cls a = none) :
    proxyGetattr cls s a = sessionGetattr s a := by
  unfold proxyGetattr sessionGetattr
  rw [if_neg h3, if_neg h2, if_neg h1, h4]

/-- Witness for the amended C7 at the run attribute. -/
theorem proxy_getattr_delegates_witness :
    proxyGetattr c7Cls c7Wrapped "run" = sessionGetattr c7Wrapped "run" :=
  proxy_getattr_delegates c7Cls c7Wrapped "run"
    (by decide) (by decide) (by decide) (by decide)

/-- C6: the Config reader extracts the package name from the tool.poetry
section, falling back to the project section; the extras are the declared
extras names; and the dependency groups are exactly the keys of the group
table, except that with no declared groups and a dev-dependencies key
present the result is the single-element list with the dev group. -/
theorem config_reader_extraction (data : TomlV) :
    (∀ s, (poetrySection data).lookup "name" = some (.str s) →
      (Config.ofData data).name = some s) ∧
    ((poetrySection data).lookup "name" = none →
      ∀ s, (projectSection data).lookup "name" = some (.str s) →
        (Config.ofData data).name = some s) ∧
    (∀ es, (poetrySection data).lookup "extras" = some (.table es) →
      (Config.ofData data).extras = es.map Prod.fst) ∧
    ((poetrySection data).lookup "extras" = none →
      (Config.ofData data).extras = []) ∧
    (∀ es, es ≠ [] → (poetrySection data).lookup "group" = some (.table es) →
      (Config.ofData data).dependency_groups = es.map Prod.fst) ∧
    (((poetrySection data).lookup "group" = none ∨
        (poetrySection data).lookup "group" = some (.table [])) →
      ((poetrySection data).lookup "dev-dependencies").isSome = true →
      (Config.ofData data).dependency_groups = ["dev"]) ∧
    (((poetrySection data).lookup "group" = none ∨
        (poetrySection data).lookup "group" = some (.table [])) →
      (poetrySection data).lookup "dev-dependencies" = none →
      (Config.ofData data).dependency_groups = []) := by
  have hpo : (Config.ofData data).poetryTable = poetrySection data := rfl
  have hpr : (Config.ofData data).projectTable = projectSection data := rfl
  refine ⟨?_, ?_, ?_, ?_, ?_, ?_, ?_⟩
  · intro s h
    unfold Config.name
    rw [hpo, h]
    rfl
  · intro h0 s h
    unfold Config.name
    rw [hpo, hpr, h0, h]
    rfl
  · intro es h
    unfold Config.extras TomlV.getD
    rw [hpo, h]
    rfl
  · intro h
    unfold Config.extras TomlV.getD
    rw [hpo, h]
    rfl
  · intro es hne h
    unfold Config.dependency_groups TomlV.getD
    rw [hpo, h]
    rcases es with _ | ⟨e0, es0⟩
    · exact absurd rfl hne
    · rfl
  · intro hg hdev
    unfold Config.dependency_groups TomlV.getD
    rw [hpo]
    rcases hg with hg | hg <;>
      · rw [hg]
        simp [TomlV.isFalsy, hdev]
  · intro hg hdev
    unfold Config.dependency_groups TomlV.getD
    rw [hpo, hdev]
    rcases hg with hg | hg <;>
      · rw [hg]
        simp [TomlV.isFalsy, TomlV.keys]

/-- Witness for C6 on a concrete pyproject document. -/
theorem config_reader_extraction_witness :
    (Config.ofData c6Data).name = some "demo" ∧
    (Config.ofData c6Data).extras = ["docs", "tests"] ∧
    (Config.ofData c6Data).dependency_groups = ["dev", "docs"] := by
  refine ⟨(config_reader_extraction c6Data).1 "demo" rfl, ?_, ?_⟩
  · have h := (config_reader_extraction c6Data).2.2.1
      [("docs", .str "x"), ("tests", .str "y")] rfl
    exact h
  · have h := (config_reader_extraction c6Data).2.2.2.2.1
      [("dev", .table []), ("docs", .table [])] (by simp) rfl
    exact h

/-- C9: to_constraint raises exactly on a line that has no excluded mark
and fails to parse, and the raised message names the line number; lines
with an excluded mark, and parsed requirements lacking a name or a
specifier, yield none; an emitted constraint is the requirement name and
specifier, with the marker appended after a semicolon when present; and
the enumerating conversion silently drops blank lines and none results
while collecting the emitted constraints. -/
theorem to_constraint_error_handling (parse : String → Except String Req)
    (s : String) (line : Nat) :
    ((∃ e, to_constraint parse s line = .error e) ↔
      (isSkippedLine s = false ∧ ∃ msg, parse s = .error msg)) ∧
    (∀ msg, isSkippedLine s = false → parse s = .error msg →
      to_constraint parse s line = .error
        ("line " ++ toString line ++ ": " ++ reprStr s ++ ": " ++ msg)) ∧
    (isSkippedLine s = true → to_constraint parse s line = .ok none) ∧
    (∀ r, isSkippedLine s = false → parse s = .ok r →
      (r.name = "" ∨ r.specifier = "") →
      to_constraint parse s line = .ok none) ∧
    (∀ r, isSkippedLine s = false → parse s = .ok r →
      r.name ≠ "" → r.specifier ≠ "" →
      to_constraint parse s line = .ok (some (match r.marker with
        | some m => r.name ++ r.specifier ++ "; " ++ m
        | none => r.name ++ r.specifier))) ∧
    (∀ rest, isBlank s = true →
      to_constraints_from parse line (s :: rest)
        = to_constraints_from parse (line + 1) rest) ∧
    (∀ rest, isBlank s = false → to_constraint parse s line = .ok none →
      to_constraints_from parse line (s :: rest)
        = to_constraints_from parse (line + 1) rest) ∧
    (∀ rest c cs, isBlank s = false → to_constraint parse s line = .ok (some c) →
      to_constraints_from parse (line + 1) rest = .ok cs →
      to_constraints_from parse line (s :: rest) = .ok (c :: cs)) := by
  refine ⟨?_, ?_, ?_, ?_, ?_, ?_, ?_, ?_⟩
  · constructor
    · rintro ⟨e, he⟩
      unfold to_constraint at he
      split at he
      next h => simp at he
      next h =>
        split at he
        next err heq => exact ⟨by simpa using h, err, heq⟩
        next r heq =>
          split at he
          · simp at he
          · simp at he
    · rintro ⟨hskip, msg, hp⟩
      refine ⟨"line " ++ toString line ++ ": " ++ reprStr s ++ ": " ++ msg, ?_⟩
      simp [to_constraint, hskip, hp]
  · intro msg hskip hp
    simp [to_constraint, hskip, hp]
  · intro h
    simp [to_constraint, h]
  · intro r hskip hp hempty
    rcases hempty with h | h <;> simp [to_constraint, hskip, hp, h]
  · intro r hskip hp h1 h2
    simp [to_constraint, hskip, hp, h1, h2]
  · intro rest hblank
    simp [to_constraints_from, hblank]
  · intro rest hnb hc
    simp only [to_constraints_from, hnb, Bool.not_eq_true', hc]
    rcases hr : to_constraints_from parse (line + 1) rest with e | cs <;> simp [hr]
  · intro rest c cs hnb hc hrest
    simp [to_constraints_from, hnb, hc, hrest]

/-- Witness for C9: an emitted constraint on a concrete parseable line. -/
theorem to_constraint_error_handling_witness :
    to_constraint c9Parse "foo==1.0" 3 = .ok (some ("foo" ++ "==1.0")) :=
  (to_constraint_error_handling c9Parse "foo==1.0" 3).2.2.2.2.1
    ⟨"foo", "==1.0", none⟩ (by decide) rfl (by decide) (by decide)

/-- Helper: with a matching stored hash the cache is reused untouched. -/
theorem export_requirements_hit (env : SessionEnv)
    (hhit : env.fs.hashfile = some (env.blake2b env.lockBytes)) :
    export_requirements env
      = .ok (env.envdir ++ "/tmp/requirements.txt", env.fs, false) := by
  simp [export_requirements, hhit]

/-- Helper: with a missing or stale stored hash the export pipeline runs. -/
theorem export_requirements_run (env : SessionEnv)
    (hmiss : env.fs.hashfile = none ∨
      ∃ t, env.fs.hashfile = some t ∧ t ≠ env.blake2b env.lockBytes) :
    export_requirements env
      = match poetryExport env.exportOutput with
        | .error e => .error e
        | .ok out =>
          match to_constraints env.parse out with
          | .error e => .error (.runtimeError e)
          | .ok constraints =>
            .ok (env.envdir ++ "/tmp/requirements.txt",
              ⟨some (env.blake2b env.lockBytes), some constraints⟩, true) := by
  rcases hmiss with hf | ⟨t, hf, hne⟩ <;> simp [export_requirements, hf]
  simp [hne]

/-- C3: export_requirements re-runs the external export, rewriting the
requirements file and the stored hash, exactly when the per-session hash
file is missing or its stored text differs from the blake2b digest of the
lock file bytes; on an unchanged digest the cached state is reused with
no export; and every successful call returns the path of the requirements
file inside the per-session temporary directory. -/
theorem export_requirements_cache (env : SessionEnv) :
    (env.fs.hashfile = some (env.blake2b env.lockBytes) →
      export_requirements env
        = .ok (env.envdir ++ "/tmp/requirements.txt", env.fs, false)) ∧
    (∀ out cs,
      (env.fs.hashfile = none ∨
        ∃ t, env.fs.hashfile = some t ∧ t ≠ env.blake2b env.lockBytes) →
      env.exportOutput = some out →
      to_constraints env.parse (stripWarnings out) = .ok cs →
      export_requirements env
        = .ok (env.envdir ++ "/tmp/requirements.txt",
            ⟨some (env.blake2b env.lockBytes), some cs⟩, true)) ∧
    (∀ p st ran, export_requirements env = .ok (p, st, ran) →
      p = env.envdir ++ "/tmp/requirements.txt" ∧
      (ran = true ↔ (env.fs.hashfile = none ∨
        ∃ t, env.fs.hashfile = some t ∧ t ≠ env.blake2b env.lockBytes))) := by
  refine ⟨export_requirements_hit env, ?_, ?_⟩
  · intro out cs hmiss hout hcs
    rw [export_requirements_run env hmiss, hout]
    simp [poetryExport, hcs]
  · intro p st ran h
    rcases hf : env.fs.hashfile with _ | t
    · rw [export_requirements_run env (Or.inl hf)] at h
      rcases ho : env.exportOutput with _ | out
      · simp [poetryExport, ho] at h
      · rcases hc : to_constraints env.parse (stripWarnings out) with e | cs
        · simp [poetryExport, ho, hc] at h
        · simp [poetryExport, ho, hc] at h
          refine ⟨h.1.symm, ?_⟩
          simp [h.2.2]
    · by_cases hEq : t = env.blake2b env.lockBytes
      · rw [export_requirements_hit env (by rw [hf, hEq])] at h
        simp at h
        refine ⟨h.1.symm, ?_⟩
        rw [h.2.2]
        simp [hEq]
      · rw [export_requirements_run env (Or.inr ⟨t, hf, hEq⟩)] at h
        rcases ho : env.exportOutput with _ | out
        · simp [poetryExport, ho] at h
        · rcases hc : to_constraints env.parse (stripWarnings out) with e | cs
          · simp [poetryExport, ho, hc] at h
          · simp [poetryExport, ho, hc] at h
            refine ⟨h.1.symm, ?_⟩
            simp [h.2.2, hEq]

/-- Witness for C3: a cache hit on a concrete environment reuses the
previous files and reports that no export ran. -/
theorem export_requirements_cache_witness :
    export_requirements c3Env
      = .ok (c3Env.envdir ++ "/tmp/requirements.txt", c3Env.fs, false) :=
  (export_requirements_cache c3Env).1 rfl

/-- Helper: the sentinel test of install, expressed over the raw
arguments. -/
theorem mem_dot_iff (args : List String) :
    ("." ∈ (args.map split_extras).map Prod.fst) ↔
      ∃ a ∈ args, (split_extras a).1 = "." := by
  simp [List.map_map, List.mem_map]

/-- Helper: the rewrite closure, described through split_extras on the
original argument: the sentinel base is replaced by the package
reference, any other base is recombined with its extras. -/
theorem rewriteArg_split_extras (n pkg a : String) :
    rewriteArg n pkg (split_extras a)
      = if (split_extras a).1 = "." then
          match (split_extras a).2 with
          | none => pkg
          | some ex => n ++ ex ++ " @ " ++ pkg
        else
          match (split_extras a).2 with
          | none => a
          | some ex => (split_extras a).1 ++ ex := by
  rcases hsp : split_extras a with ⟨b, e⟩
  by_cases hdot : b = "."
  · subst hdot
    simp [rewriteArg]
  · rcases e with _ | ex
    · have hba := split_extras_of_none hsp
      simp [rewriteArg, hdot, hba]
    · simp [rewriteArg, hdot]

/-- Helper: the full behaviour of install when a sentinel argument is
present and both the build and the export succeed. -/
theorem install_eq_of_ok_dot (env : SessionEnv) (args : List String)
    (pkg reqs : String) (st : FsState) (ran : Bool)
    (hb : build_package env .wheel = .ok pkg)
    (he : export_requirements env = .ok (reqs, st, ran))
    (hdot : "." ∈ (args.map split_extras).map Prod.fst) :
    install env args =
      ([.buildPackage, .runAlways ["pip", "uninstall", "--yes", pkg],
        .exportRequirements,
        .sessionInstall (("--constraint=" ++ reqs)
          :: (args.map split_extras).map (rewriteArg env.name pkg))], none) := by
  simp only [install]
  rw [if_pos hdot, hb, he]
  rfl

/-- Helper: the full behaviour of install with no sentinel argument and a
successful export. -/
theorem install_eq_of_ok_nodot (env : SessionEnv) (args : List String)
    (reqs : String) (st : FsState) (ran : Bool)
    (he : export_requirements env = .ok (reqs, st, ran))
    (hdot : "." ∉ (args.map split_extras).map Prod.fst) :
    install env args =
      ([.exportRequirements,
        .sessionInstall (("--constraint=" ++ reqs) :: args)], none) := by
  simp only [install]
  rw [if_neg hdot, he]

/-- C1 counterexample: with the sentinel present, a non-sentinel
argument carrying a trailing newline accepted by the extras pattern is
forwarded with the newline dropped (base and extras recombined), not
unchanged: the session receives the changed argument and never the
original one. -/
theorem install_forward_unchanged_cex :
    Effect.sessionInstall ["--constraint=/e/tmp/requirements.txt",
        "file:///p/dist/demo-0.1.0-py3-none-any.whl", "x[y]"]
      ∈ (install c1Env [".", "x[y]\n"]).1 ∧
    Effect.sessionInstall ["--constraint=/e/tmp/requirements.txt",
        "file:///p/dist/demo-0.1.0-py3-none-any.whl", "x[y]\n"]
      ∉ (install c1Env [".", "x[y]\n"]).1 := by
  constructor <;> decide

/-- C1 (amended): on a successful run, when at least one argument has
the sentinel base the underlying session install receives every argument
whose extras-split base is the sentinel replaced by the built archive
reference (the bare URL without extras, the name-extras-at-URL form with
extras) and every other argument recombined from its base and extras,
identical to the original argument except that a trailing newline
consumed by the extras pattern is dropped; when no argument has the
sentinel base the argument tuple is forwarded verbatim; and the package
build happens exactly when some argument has the sentinel base. -/
theorem install_replaces_sentinel (env : SessionEnv) (args : List String)
    (pkg reqs : String) (st : FsState) (ran : Bool)
    (hb : build_package env .wheel = .ok pkg)
    (he : export_requirements env = .ok (reqs, st, ran)) :
    Effect.sessionInstall (("--constraint=" ++ reqs) ::
        (if "." ∈ (args.map split_extras).map Prod.fst then
          args.map (fun a =>
            if (split_extras a).1 = "." then
              match (split_extras a).2 with
              | none => pkg
              | some ex => env.name ++ ex ++ " @ " ++ pkg
            else
              match (split_extras a).2 with
              | none => a
              | some ex => (split_extras a).1 ++ ex)
        else args)) ∈ (install env args).1 ∧
    (Effect.buildPackage ∈ (install env args).1 ↔
      ∃ a ∈ args, (split_extras a).1 = ".") := by
  have hmap : (args.map split_extras).map (rewriteArg env.name pkg)
      = args.map (fun a =>
          if (split_extras a).1 = "." then
            match (split_extras a).2 with
            | none => pkg
            | some ex => env.name ++ ex ++ " @ " ++ pkg
          else
            match (split_extras a).2 with
            | none => a
            | some ex => (split_extras a).1 ++ ex) := by
    rw [List.map_map]
    exact List.map_congr_left
      (fun a _ => rewriteArg_split_extras env.name pkg a)
  by_cases hdot : "." ∈ (args.map split_extras).map Prod.fst
  · rw [install_eq_of_ok_dot env args pkg reqs st ran hb he hdot,
      if_pos hdot]
    constructor
    · rw [← hmap]
      simp
    · exact iff_of_true (by simp) ((mem_dot_iff args).mp hdot)
  · rw [install_eq_of_ok_nodot env args reqs st ran he hdot, if_neg hdot]
    constructor
    · simp
    · exact iff_of_false (by simp)
        (fun hex => hdot ((mem_dot_iff args).mpr hex))

/-- Witness for the amended C1: installing the sentinel alone passes the
built wheel URL and the constraint option to the underlying install. -/
theorem install_replaces_sentinel_witness :
    Effect.sessionInstall ["--constraint=/e/tmp/requirements.txt",
        "file:///p/dist/demo-0.1.0-py3-none-any.whl"]
      ∈ (install c1Env ["."]).1 := by
  have h := (install_replaces_sentinel c1Env ["."]
    "file:///p/dist/demo-0.1.0-py3-none-any.whl" "/e/tmp/requirements.txt"
    ⟨some "d", some ""⟩ true rfl rfl).1
  exact h

/-- Helper: install when the build raises; only CommandSkippedError is
caught, other exceptions propagate. -/
theorem install_eq_err_build (env : SessionEnv) (args : List String)
    (e : PError) (hb : build_package env .wheel = .error e)
    (hdot : "." ∈ (args.map split_extras).map Prod.fst) :
    install env args = ([.buildPackage],
      skipToOpt e) := by
  simp only [install]
  rw [if_pos hdot, hb]
  rcases e <;> rfl

/-- Helper: install with no sentinel argument when the export raises. -/
theorem install_eq_err_export_nodot (env : SessionEnv) (args : List String)
    (e : PError) (hexp : export_requirements env = .error e)
    (hdot : "." ∉ (args.map split_extras).map Prod.fst) :
    install env args = ([.exportRequirements],
      skipToOpt e) := by
  simp only [install]
  rw [if_neg hdot, hexp]
  rcases e <;> rfl

/-- Helper: install with a sentinel argument, a successful build, and a
raising export. -/
theorem install_eq_err_export_dot (env : SessionEnv) (args : List String)
    (pkg : String) (e : PError)
    (hb : build_package env .wheel = .ok pkg)
    (hexp : export_requirements env = .error e)
    (hdot : "." ∈ (args.map split_extras).map Prod.fst) :
    install env args
      = ([.buildPackage, .runAlways ["pip", "uninstall", "--yes", pkg],
          .exportRequirements],
        skipToOpt e) := by
  simp only [install]
  rw [if_pos hdot, hb, hexp]
  rcases e <;> rfl

/-- Helper: installroot when the build raises. -/
theorem installroot_eq_err_build (env : SessionEnv)
    (fmt : DistributionFormat) (extras : List String) (e : PError)
    (hb : build_package env fmt = .error e) :
    installroot env fmt extras = ([.buildPackage],
      skipToOpt e) := by
  simp only [installroot]
  rw [hb]
  rcases e <;> rfl

/-- Helper: installroot when the build succeeds and the export raises. -/
theorem installroot_eq_err_export (env : SessionEnv)
    (fmt : DistributionFormat) (extras : List String) (pkg : String)
    (e : PError) (hb : build_package env fmt = .ok pkg)
    (hexp : export_requirements env = .error e) :
    installroot env fmt extras = ([.buildPackage, .exportRequirements],
      skipToOpt e) := by
  simp only [installroot]
  rw [hb, hexp]
  rcases e <;> rfl

/-- C2 counterexample: on a concrete non-skipped call with one plain
package argument, the constraint option naming the exported requirements
file is passed as the first argument of the underlying session install;
the list with the constraint option appended after the rewritten
arguments is not what the session receives. -/
theorem install_constraint_appended_cex :
    Effect.sessionInstall ["--constraint=/e/tmp/requirements.txt", "urllib3"]
        ∈ (install c2Env ["urllib3"]).1 ∧
    Effect.sessionInstall ["urllib3", "--constraint=/e/tmp/requirements.txt"]
        ∉ (install c2Env ["urllib3"]).1 := by
  constructor <;> decide

/-- C2 amended: on every install call that is not skipped, a constraints
option naming the exported requirements file is prepended to the
rewritten argument list (it is passed as the first argument) before the
underlying session install is invoked, on every such call even when no
argument is the sentinel. -/
theorem install_constraint_prepended (env : SessionEnv) (args : List String)
    (reqs : String) (st : FsState) (ran : Bool)
    (he : export_requirements env = .ok (reqs, st, ran)) :
    (∀ l, Effect.sessionInstall l ∈ (install env args).1 →
      l.head? = some ("--constraint=" ++ reqs)) ∧
    (("." ∉ (args.map split_extras).map Prod.fst ∨
        ∃ pkg, build_package env .wheel = .ok pkg) →
      ∃ l, Effect.sessionInstall l ∈ (install env args).1) := by
  constructor
  · intro l hl
    by_cases hdot : "." ∈ (args.map split_extras).map Prod.fst
    · rcases hb : build_package env .wheel with e | pkg
      · rw [install_eq_err_build env args e hb hdot] at hl
        simp at hl
      · rw [install_eq_of_ok_dot env args pkg reqs st ran hb he hdot] at hl
        simp at hl
        rw [hl]
        rfl
    · rw [install_eq_of_ok_nodot env args reqs st ran he hdot] at hl
      simp at hl
      rw [hl]
      rfl
  · rintro (hnodot | ⟨pkg, hb⟩)
    · rw [install_eq_of_ok_nodot env args reqs st ran he hnodot]
      exact ⟨("--constraint=" ++ reqs) :: args, by simp⟩
    · by_cases hdot : "." ∈ (args.map split_extras).map Prod.fst
      · rw [install_eq_of_ok_dot env args pkg reqs st ran hb he hdot]
        exact ⟨("--constraint=" ++ reqs)
          :: (args.map split_extras).map (rewriteArg env.name pkg), by simp⟩
      · rw [install_eq_of_ok_nodot env args reqs st ran he hdot]
        exact ⟨("--constraint=" ++ reqs) :: args, by simp⟩

/-- Witness for the amended C2: the head of the concrete argument list
the session receives is the constraint option. -/
theorem install_constraint_prepended_witness :
    (["--constraint=/e/tmp/requirements.txt", "urllib3"] : List String).head?
      = some ("--constraint=" ++ "/e/tmp/requirements.txt") :=
  (install_constraint_prepended c2Env ["urllib3"] "/e/tmp/requirements.txt"
    ⟨some "d", some ""⟩ true rfl).1
    ["--constraint=/e/tmp/requirements.txt", "urllib3"] (by decide)

/-- C10: when a required command is skipped, install and installroot
return normally, with no uncaught exception and without ever invoking the
underlying session install, so no constraint option is passed and nothing
is installed. -/
theorem skip_returns_without_install (env : SessionEnv) (args : List String)
    (fmt : DistributionFormat) (extras : List String) :
    (∀ m, export_requirements env = .error (.commandSkipped m) →
      ("." ∉ (args.map split_extras).map Prod.fst ∨
        ∃ pkg, build_package env .wheel = .ok pkg) →
      (install env args).2 = none ∧
        ∀ l, Effect.sessionInstall l ∉ (install env args).1) ∧
    (∀ m, build_package env .wheel = .error (.commandSkipped m) →
      "." ∈ (args.map split_extras).map Prod.fst →
      (install env args).2 = none ∧
        ∀ l, Effect.sessionInstall l ∉ (install env args).1) ∧
    (∀ m, build_package env fmt = .error (.commandSkipped m) →
      (installroot env fmt extras).2 = none ∧
        ∀ l, Effect.sessionInstall l ∉ (installroot env fmt extras).1) ∧
    (∀ m pkg, build_package env fmt = .ok pkg →
      export_requirements env = .error (.commandSkipped m) →
      (installroot env fmt extras).2 = none ∧
        ∀ l, Effect.sessionInstall l ∉ (installroot env fmt extras).1) := by
  refine ⟨?_, ?_, ?_, ?_⟩
  · rintro m hexp (hnodot | ⟨pkg, hb⟩)
    · rw [install_eq_err_export_nodot env args _ hexp hnodot]
      exact ⟨rfl, by simp⟩
    · by_cases hdot : "." ∈ (args.map split_extras).map Prod.fst
      · rw [install_eq_err_export_dot env args pkg _ hb hexp hdot]
        exact ⟨rfl, by simp⟩
      · rw [install_eq_err_export_nodot env args _ hexp hdot]
        exact ⟨rfl, by simp⟩
  · intro m hb hdot
    rw [install_eq_err_build env args _ hb hdot]
    exact ⟨rfl, by simp⟩
  · intro m hb
    rw [installroot_eq_err_build env fmt extras _ hb]
    exact ⟨rfl, by simp⟩
  · intro m pkg hb hexp
    rw [installroot_eq_err_export env fmt extras pkg _ hb hexp]
    exact ⟨rfl, by simp⟩

/-- Witness for C10: a concrete skipped export leaves install without an
uncaught exception. -/
theorem skip_returns_without_install_witness :
    (install c10Env ["urllib3"]).2 = none :=
  ((skip_returns_without_install c10Env ["urllib3"] .wheel []).1
    "The command poetry export was not executed" rfl (Or.inl (by decide))).1

end NoxPoetry
